import Mathlib

/-!
Shallow embedding of `PythonAPI/docs/bp_doc_gen.py` (CARLA blueprint
documentation generator) and verification of its specification claims.

Python strings are modelled as Lean `String` (a wrapper around `List Char`;
Python compares strings lexicographically by code point, as does Lean's
`String` order).  Python `int` is modelled as `Int`.  The mutable
`MarkdownFile` object is modelled as a record threaded explicitly.
-/

namespace BpDocGen

/-- Python: `separator.join(elem)`:  `''.join(['a','b'])` is `"ab"`,
`','.join(['a','b'])` is `"a,b"`. -/
def pyJoin (separator : String) : List String → String
  | [] => ""
  | [a] => a
  | a :: rest => a ++ separator ++ pyJoin separator rest

/-- Source: `def join(elem, separator=''): return separator.join(elem)` -/
def join (elem : List String) (separator : String := "") : String :=
  pyJoin separator elem

/-- Source: `COLOR_LIST = '#498efc'` -/
def COLOR_LIST : String := "#498efc"

/-- Source: `def color(col, buf)` -/
def color (col buf : String) : String :=
  join ["<font color=\"", col, "\">", buf, "</font>"]

/-- Source: `def italic(buf)` -/
def italic (buf : String) : String :=
  join ["_", buf, "_"]

/-- Source: `def bold(buf)` -/
def bold (buf : String) : String :=
  join ["**", buf, "**"]

/-- Source: `def parentheses(buf)` -/
def parentheses (buf : String) : String :=
  join ["(", buf, ")"]

/-- Source: `def sub(buf)` -/
def sub (buf : String) : String :=
  join ["<sub>", buf, "</sub>"]

/-- Source: `def code(buf)` -/
def code (buf : String) : String :=
  join ["`", buf, "`"]

/-- Python string repetition `s * n` (empty for `n <= 0`). -/
def strMul (s : String) (n : Int) : String :=
  String.join (List.replicate n.toNat s)

/-- Python: `str.isspace`-style whitespace recognized by `str.strip()`
(ASCII part: space, tab, newline, carriage return, vertical tab, form feed). -/
def pyIsSpace (c : Char) : Bool :=
  c == ' ' || c == '\t' || c == '\n' || c == '\x0D' || c == '\x0B' || c == '\x0C'

/-- Python: `s.strip()`: remove leading and trailing whitespace. -/
def pyStrip (s : String) : String :=
  String.mk (((s.data.dropWhile pyIsSpace).reverse.dropWhile pyIsSpace).reverse)

/-- Python: `s[-1:]`: the last character as a one-character string, or `""`
when `s` is empty. -/
def lastSlice (s : String) : String :=
  match s.data.getLast? with
  | none => ""
  | some c => String.mk [c]

/-- The `MarkdownFile` object: `self._data` (accumulated text) and
`self._list_depth` (current list nesting depth). -/
structure MarkdownFile where
  _data : String
  _list_depth : Int
deriving DecidableEq, Repr

/-- Source: `self.endl = '  \n'` (set in `__init__`, never reassigned). -/
def MarkdownFile.endl : String := "  \n"

/-- Source: `__init__`: `self._data = ""`, `self._list_depth = 0`. -/
def MarkdownFile.empty : MarkdownFile :=
  { _data := "", _list_depth := 0 }

/-- Source: `def data(self): return self._data` -/
def MarkdownFile.data (m : MarkdownFile) : String :=
  m._data

/-- Source: `def list_depth(self)`:
`if self._data.strip()[-1:] != '\n' or self._list_depth == 0: return ''`
`return join(['    ' * self._list_depth])` -/
def MarkdownFile.list_depth (m : MarkdownFile) : String :=
  if lastSlice (pyStrip m._data) != "\n" || m._list_depth == 0 then ""
  else join [strMul "    " m._list_depth]

/-- Source: `def text(self, buf): self._data = join([self._data, buf])` -/
def MarkdownFile.text (m : MarkdownFile) (buf : String) : MarkdownFile :=
  { m with _data := join [m._data, buf] }

/-- Source: `def textn(self, buf):
self._data = join([self._data, self.list_depth(), buf, self.endl])` -/
def MarkdownFile.textn (m : MarkdownFile) (buf : String) : MarkdownFile :=
  { m with _data := join [m._data, m.list_depth, buf, MarkdownFile.endl] }

/-- Source: `def list_push(self, buf='')`:
`if buf: self.text(join(['    ' * self._list_depth if self._list_depth != 0 else '', '- ', buf]))`
`self._list_depth = (self._list_depth + 1)` -/
def MarkdownFile.list_push (m : MarkdownFile) (buf : String := "") : MarkdownFile :=
  let m1 :=
    if buf != "" then
      m.text (join [if m._list_depth != 0 then strMul "    " m._list_depth else "", "- ", buf])
    else m
  { m1 with _list_depth := m1._list_depth + 1 }

/-- Source: `def list_pushn(self, buf): self.list_push(join([buf, self.endl]))` -/
def MarkdownFile.list_pushn (m : MarkdownFile) (buf : String) : MarkdownFile :=
  m.list_push (join [buf, MarkdownFile.endl])

/-- Source: `def list_pop(self): self._list_depth = max(self._list_depth - 1, 0)` -/
def MarkdownFile.list_pop (m : MarkdownFile) : MarkdownFile :=
  { m with _list_depth := max (m._list_depth - 1) 0 }

/-- Source: `def list_popn(self): self.list_pop(); self._data = join([self._data, '\n'])` -/
def MarkdownFile.list_popn (m : MarkdownFile) : MarkdownFile :=
  let m1 := m.list_pop
  { m1 with _data := join [m1._data, "\n"] }

/-- Source: `def not_title(self, buf):
self._data = join([self._data, '\n', self.list_depth(), '#', buf, '\n'])` -/
def MarkdownFile.not_title (m : MarkdownFile) (buf : String) : MarkdownFile :=
  { m with _data := join [m._data, "\n", m.list_depth, "#", buf, "\n"] }

/-- Source: `def title(self, strongness, buf):
self._data = join([self._data, '\n', self.list_depth(), '#' * strongness, ' ', buf, '\n'])` -/
def MarkdownFile.title (m : MarkdownFile) (strongness : Int) (buf : String) : MarkdownFile :=
  { m with _data := join [m._data, "\n", m.list_depth, strMul "#" strongness, " ", buf, "\n"] }

/-- Source: `def new_line(self): self._data = join([self._data, self.endl])` -/
def MarkdownFile.new_line (m : MarkdownFile) : MarkdownFile :=
  { m with _data := join [m._data, MarkdownFile.endl] }

/-- Source: `def code_block(self, buf, language='')`: returns (does not append)
`join(['```', language, '\n', self.list_depth(), buf, '\n', self.list_depth(), '```\n'])` -/
def MarkdownFile.code_block (m : MarkdownFile) (buf : String) (language : String := "") : String :=
  join ["```", language, "\n", m.list_depth, buf, "\n", m.list_depth, "```\n"]

/-- Source: `carla.ActorAttribute` as consumed by the generator: `attr.id`,
`str(attr.type)` (modelled directly as its string rendering), and
`attr.is_modifiable`. -/
structure ActorAttribute where
  id : String
  type : String
  is_modifiable : Bool
deriving DecidableEq, Repr

/-- Source: `carla.ActorBlueprint` as consumed by the generator: `bp.id` and the
attribute sequence obtained by iterating the blueprint. -/
structure ActorBlueprint where
  id : String
  attributes : List ActorAttribute
deriving DecidableEq, Repr

/-- Comparison used by Python `sorted` on strings (lexicographic by code
point, which is also Lean's `String` order). -/
def leStr (a b : String) : Bool :=
  decide (a ≤ b)

/-- Python: `sorted` on strings (stable; lexicographic by code point). -/
def pySorted (l : List String) : List String :=
  l.mergeSort leStr

/-- Source: `bp_id.split('.')[0]`: the substring before the first `.` (the whole
string when it contains no `.`). -/
def bpCategory (bp_id : String) : String :=
  (bp_id.splitOn ".").headD ""

/-- One step of the dict-building loop body:
`if bp_type in bp_dict: bp_dict[bp_type].append(value)`
`else: bp_dict[bp_type] = [value]`.
The dict is modelled as an association list in key-insertion order
(Python 3.7+ dicts iterate in insertion order). -/
def dictAppend {α : Type} (gs : List (String × List α)) (k : String) (v : α) :
    List (String × List α) :=
  match gs with
  | [] => [(k, [v])]
  | (k', g) :: rest =>
    if k' = k then (k', g ++ [v]) :: rest else (k', g) :: dictAppend rest k v

/-- The dict-building loop `for x in l: bp_dict[key x].append(x)`, starting
from the empty dict. -/
def groupByCategory {α : Type} (key : α → String) (l : List α) :
    List (String × List α) :=
  l.foldl (fun d a => dictAppend d (key a) a) []

/-- Flattening all the dict's groups back into one list, in dict iteration
order. -/
def flattenGroups {α : Type} (gs : List (String × List α)) : List α :=
  (gs.map Prod.snd).foldr (· ++ ·) []

/-- Source: `value = []` then `for bp in blueprints: if bp.id == bp_id: value = [bp_id, bp]`:
the last blueprint whose id matches, if any.  (In `generate_pb_docs` every
`bp_id` comes from `blueprints` itself, so a match always exists.) -/
def lookupLast (bps : List ActorBlueprint) (bp_id : String) : Option ActorBlueprint :=
  bps.foldl (fun acc bp => if bp.id == bp_id then some bp else acc) none

/-- The grouping loop of `generate_pb_docs`:
`for bp_id in sorted(blueprint_ids): ... bp_dict[bp_type].append([bp_id, bp])`
with `bp_type = bp_id.split('.')[0]` and `bp` the last matching blueprint. -/
def bp_dict (bps : List ActorBlueprint) :
    List (String × List (String × Option ActorBlueprint)) :=
  groupByCategory (fun p => bpCategory p.1)
    ((pySorted (bps.map (·.id))).map (fun bp_id => (bp_id, lookupLast bps bp_id)))

/-- Python: `sorted(value)` on the `[bp_id, bp]` pairs: list comparison is
lexicographic, so the pairs are ordered by their first component `bp_id`.
(Python would only compare the second components on equal ids, which would
raise; blueprint ids are distinct in practice, and the claimed ordering of
ids holds either way under this stable sort.) -/
def leFst (p q : String × Option ActorBlueprint) : Bool :=
  decide (p.1 ≤ q.1)

/-- Comparison used by `sorted(bp[1], key=lambda x: x.id)`. -/
def leAttrId (a b : ActorAttribute) : Bool :=
  decide (a.id ≤ b.id)

/-- Python: `sorted(value)` applied to the group. -/
def pySortedPairs (value : List (String × Option ActorBlueprint)) :
    List (String × Option ActorBlueprint) :=
  value.mergeSort leFst

/-- Python: `sorted(bp[1], key=lambda x: x.id)` (stable sort by attribute id). -/
def pySortedAttrs (attrs : List ActorAttribute) : List ActorAttribute :=
  attrs.mergeSort leAttrId

/-- The attributes obtained by iterating `bp[1]`.  The `none` case cannot
arise in `generate_pb_docs` (ids are drawn from the blueprints themselves). -/
def attrsOf : Option ActorBlueprint → List ActorAttribute
  | none => []
  | some bp => bp.attributes

/-- The inner attribute loop body:
`md.list_push(code(attr.id))`,
`md.text(' ' + parentheses(italic(str(attr.type))))`,
`if attr.is_modifiable: md.text(' ' + sub(italic('- Modifiable')))`,
`md.list_popn()`. -/
def renderAttr (md : MarkdownFile) (attr : ActorAttribute) : MarkdownFile :=
  let md := md.list_push (code attr.id)
  let md := md.text (" " ++ parentheses (italic attr.type))
  let md := if attr.is_modifiable then md.text (" " ++ sub (italic "- Modifiable")) else md
  md.list_popn

/-- The per-blueprint loop body:
`md.list_pushn(bold(color(COLOR_LIST, bp[0])))`,
`md.list_push(bold('Attributes:') + '\n')`,
the attribute loop over `sorted(bp[1], key=lambda x: x.id)`,
`md.list_pop()`, `md.list_pop()`. -/
def renderBlueprint (md : MarkdownFile) (bp : String × Option ActorBlueprint) :
    MarkdownFile :=
  let md := md.list_pushn (bold (color COLOR_LIST bp.1))
  let md := md.list_push (bold "Attributes:" ++ "\n")
  let md := (pySortedAttrs (attrsOf bp.2)).foldl renderAttr md
  md.list_pop.list_pop

/-- The per-category loop body: `md.title(3, key)`, the blueprint loop over
`sorted(value)`, then `md.list_pop()`. -/
def renderCategory (md : MarkdownFile) (kv : String × List (String × Option ActorBlueprint)) :
    MarkdownFile :=
  (((pySortedPairs kv.2).foldl renderBlueprint (md.title 3 kv.1))).list_pop

/-- Source: `generate_pb_docs()` as a function of the fetched blueprint list (the
`carla.Client` fetch itself is the external call; its `print` is modelled in
`mainModel`). -/
def generate_pb_docs (bps : List ActorBlueprint) : String :=
  let md := MarkdownFile.empty
  let md := md.not_title "Blueprint Library"
  let md := md.textn
    ("The Blueprint Library ([`carla.BlueprintLibrary`](../python_api/#carlablueprintlibrary-class)) " ++
     "is a summary of all [`carla.ActorBlueprint`](../python_api/#carla.ActorBlueprint) " ++
     "and its attributes ([`carla.ActorAttribute`](../python_api/#carla.ActorAttribute)) " ++
     "available to the user in CARLA.")
  let md := md.textn "\nHere is an example code for printing all actor blueprints and their attributes:"
  let md := md.textn (md.code_block ("blueprints = [bp for bp in world.get_blueprint_library().filter(\x27*\x27)]\n" ++
     "for blueprint in blueprints:\n" ++
     "   print(blueprint.id)\n" ++
     "   for attr in blueprint:\n" ++
     "       print(\x27  - \x7b\x7d\x27.format(attr))") "py")
  let md := md.textn "Check out the [introduction to blueprints](core_actors.md)."
  let md := (bp_dict bps).foldl renderCategory md
  md.data

/-- The observable outcome of one run of `main()`: the process exit status,
the lines printed (in order), and the file contents when one is written. -/
structure MainResult where
  exitCode : Nat
  printed : List String
  fileOut : Option String
deriving DecidableEq, Repr

/-- The outcome of the provider fetch inside `generate_pb_docs`:
either the blueprint list, or the `RuntimeError` raised when the client
cannot reach the simulator or times out. -/
abbrev FetchOutcome : Type := Except Unit (List ActorBlueprint)

/-- Source: `main()` as a function of the fetch outcome.  On `RuntimeError` the
handler prints a four-line diagnostic and calls `sys.exit(0)`; on success
`main` writes the document and returns normally (process exit status 0). -/
def mainModel (fetch : FetchOutcome) : MainResult :=
  match fetch with
  | Except.error _ =>
    { exitCode := 0
      printed :=
        ["Generating API blueprint documentation...",
         "\n  [ERROR] Can\x27t establish connection with the simulator",
         " .---------------------------------------------------.",
         "  |       Make sure the simulator is connected!       |",
         "  \x27---------------------------------------------------\x27\n"]
      fileOut := none }
  | Except.ok bps =>
    { exitCode := 0
      printed := ["Generating API blueprint documentation...", "Done!"]
      fileOut := some (generate_pb_docs bps) }

/-- The public mutating operations of `MarkdownFile`, for stating properties
of arbitrary call sequences.  (`data` and `code_block` return values and do
not mutate, so they have no constructor here.) -/
inductive MdOp : Type
  | text (buf : String)
  | textn (buf : String)
  | not_title (buf : String)
  | title (strongness : Int) (buf : String)
  | new_line
  | list_push (buf : String)
  | list_pushn (buf : String)
  | list_pop
  | list_popn
deriving DecidableEq, Repr

/-- Apply one public mutating operation. -/
def applyOp (m : MarkdownFile) : MdOp → MarkdownFile
  | MdOp.text buf => m.text buf
  | MdOp.textn buf => m.textn buf
  | MdOp.not_title buf => m.not_title buf
  | MdOp.title s buf => m.title s buf
  | MdOp.new_line => m.new_line
  | MdOp.list_push buf => m.list_push buf
  | MdOp.list_pushn buf => m.list_pushn buf
  | MdOp.list_pop => m.list_pop
  | MdOp.list_popn => m.list_popn

/-- Run a sequence of operations on a freshly constructed `MarkdownFile`. -/
def runOps (ops : List MdOp) : MarkdownFile :=
  ops.foldl applyOp MarkdownFile.empty

/-- Helper for the spec-side order below: scan a list left to right, keeping
each element the first time it is seen (the `seen` accumulator records the
elements already encountered). -/
def firstEncounterAux (seen : List String) : List String → List String
  | [] => []
  | a :: l =>
    if a ∈ seen then firstEncounterAux seen l
    else a :: firstEncounterAux (a :: seen) l

/-- Modelled from the spec's words (for the refinement claim about category
order): the order in which each value is first encountered during a
left-to-right scan of the list. -/
def specFirstEncounterOrder (l : List String) : List String :=
  firstEncounterAux [] l

/-! ### Helper lemmas about the embedding -/

@[simp] theorem join_nil : join [] = "" := rfl

@[simp] theorem join_cons (a : String) (l : List String) :
    join (a :: l) = a ++ join l := by
  show pyJoin "" (a :: l) = a ++ pyJoin "" l
  cases l with
  | nil => simp [pyJoin]
  | cons b l => simp [pyJoin]

@[simp] theorem strMul_zero (s : String) : strMul s 0 = "" := rfl

theorem indent_ite (d : Int) :
    (if d != 0 then strMul "    " d else "") = strMul "    " d := by
  by_cases h : d = 0
  · simp [h]
  · simp [h]

theorem indent_ite' (d : Int) :
    (if d = 0 then "" else strMul "    " d) = strMul "    " d := by
  by_cases h : d = 0
  · simp [h]
  · simp [h]

theorem lastSlice_pyStrip_ne_newline (s : String) :
    lastSlice (pyStrip s) ≠ "\n" := by
  have h := List.head?_dropWhile_not pyIsSpace (s.data.dropWhile pyIsSpace).reverse
  cases hM : (s.data.dropWhile pyIsSpace).reverse.dropWhile pyIsSpace with
  | nil =>
    unfold pyStrip
    rw [hM]
    intro hc
    exact absurd hc (by decide)
  | cons c t =>
    rw [hM] at h
    simp only [List.head?_cons] at h
    unfold pyStrip lastSlice
    rw [hM]
    have hg : (String.mk ((c :: t).reverse)).data.getLast? = some c := by
      rw [show (String.mk ((c :: t).reverse)).data = (c :: t).reverse from rfl,
        List.getLast?_eq_head?_reverse, List.reverse_reverse]
      rfl
    rw [hg]
    intro hc
    have hcn : c = '\n' := by
      have h2 := congrArg String.data hc
      simpa using h2
    rw [hcn] at h
    simp [pyIsSpace] at h

/-- The central quirk of the accumulator: `list_depth()` always returns the
empty string, because `str.strip()` removes any trailing newline before the
last-character check, so the check can never see a newline. -/
theorem list_depth_empty (m : MarkdownFile) : m.list_depth = "" := by
  have hne := lastSlice_pyStrip_ne_newline m._data
  have h : (lastSlice (pyStrip m._data) != "\n") = true := by
    simpa using hne
  simp [MarkdownFile.list_depth, h]

@[simp] theorem text_data (m : MarkdownFile) (buf : String) :
    (m.text buf)._data = m._data ++ buf := by
  simp [MarkdownFile.text]

@[simp] theorem text_depth (m : MarkdownFile) (buf : String) :
    (m.text buf)._list_depth = m._list_depth := rfl

@[simp] theorem textn_data (m : MarkdownFile) (buf : String) :
    (m.textn buf)._data = m._data ++ (buf ++ MarkdownFile.endl) := by
  simp [MarkdownFile.textn, list_depth_empty]

@[simp] theorem textn_depth (m : MarkdownFile) (buf : String) :
    (m.textn buf)._list_depth = m._list_depth := rfl

@[simp] theorem not_title_data (m : MarkdownFile) (buf : String) :
    (m.not_title buf)._data = m._data ++ ("\n" ++ ("#" ++ (buf ++ "\n"))) := by
  simp [MarkdownFile.not_title, list_depth_empty]

@[simp] theorem not_title_depth (m : MarkdownFile) (buf : String) :
    (m.not_title buf)._list_depth = m._list_depth := rfl

@[simp] theorem title_data (m : MarkdownFile) (strongness : Int) (buf : String) :
    (m.title strongness buf)._data
      = m._data ++ ("\n" ++ (strMul "#" strongness ++ (" " ++ (buf ++ "\n")))) := by
  simp [MarkdownFile.title, list_depth_empty]

@[simp] theorem title_depth (m : MarkdownFile) (strongness : Int) (buf : String) :
    (m.title strongness buf)._list_depth = m._list_depth := rfl

@[simp] theorem new_line_data (m : MarkdownFile) :
    m.new_line._data = m._data ++ MarkdownFile.endl := by
  simp [MarkdownFile.new_line]

@[simp] theorem new_line_depth (m : MarkdownFile) :
    m.new_line._list_depth = m._list_depth := rfl

@[simp] theorem list_pop_data (m : MarkdownFile) :
    m.list_pop._data = m._data := rfl

@[simp] theorem list_pop_depth (m : MarkdownFile) :
    m.list_pop._list_depth = max (m._list_depth - 1) 0 := rfl

@[simp] theorem list_popn_data (m : MarkdownFile) :
    m.list_popn._data = m._data ++ "\n" := by
  simp [MarkdownFile.list_popn, MarkdownFile.list_pop]

@[simp] theorem list_popn_depth (m : MarkdownFile) :
    m.list_popn._list_depth = max (m._list_depth - 1) 0 := rfl

theorem list_push_data_of_ne (m : MarkdownFile) (buf : String) (h : buf ≠ "") :
    (m.list_push buf)._data
      = m._data ++ (strMul "    " m._list_depth ++ ("- " ++ buf)) := by
  simp [MarkdownFile.list_push, MarkdownFile.text, h, indent_ite, indent_ite']

theorem list_push_data_of_empty (m : MarkdownFile) :
    (m.list_push "")._data = m._data := by
  simp [MarkdownFile.list_push]

@[simp] theorem list_push_depth (m : MarkdownFile) (buf : String) :
    (m.list_push buf)._list_depth = m._list_depth + 1 := by
  by_cases h : buf = "" <;> simp [MarkdownFile.list_push, MarkdownFile.text, h]

theorem list_pushn_eq (m : MarkdownFile) (buf : String) :
    m.list_pushn buf = m.list_push (buf ++ MarkdownFile.endl) := by
  unfold MarkdownFile.list_pushn
  congr 1
  simp

theorem append_endl_ne_empty (buf : String) : buf ++ MarkdownFile.endl ≠ "" := by
  intro h
  have h2 := congrArg String.data h
  simp [MarkdownFile.endl] at h2

@[simp] theorem list_pushn_depth (m : MarkdownFile) (buf : String) :
    (m.list_pushn buf)._list_depth = m._list_depth + 1 := by
  rw [list_pushn_eq]
  simp

theorem list_pushn_data (m : MarkdownFile) (buf : String) :
    (m.list_pushn buf)._data
      = m._data ++ (strMul "    " m._list_depth ++ ("- " ++ (buf ++ MarkdownFile.endl))) := by
  rw [list_pushn_eq]
  exact list_push_data_of_ne m _ (append_endl_ne_empty buf)

theorem depth_nonneg_step (m : MarkdownFile) (op : MdOp)
    (h : 0 ≤ m._list_depth) : 0 ≤ (applyOp m op)._list_depth := by
  cases op <;> simp [applyOp] <;> omega

theorem foldl_depth_nonneg (ops : List MdOp) :
    ∀ m : MarkdownFile, 0 ≤ m._list_depth → 0 ≤ (ops.foldl applyOp m)._list_depth := by
  induction ops with
  | nil => intro m h; simpa using h
  | cons op ops ih =>
    intro m h
    simpa [List.foldl_cons] using ih (applyOp m op) (depth_nonneg_step m op h)

/-! ### Claim theorems -/

/-- C6: starting from a freshly created accumulator, the nesting-depth
counter is never negative after any sequence of public operations; further,
`list_pop` at depth 0 leaves the depth at 0, and at depth `d > 0` yields
`d - 1`. -/
theorem c6_depth_never_negative (ops : List MdOp) (m : MarkdownFile) :
    0 ≤ (runOps ops)._list_depth ∧
    (m._list_depth = 0 → m.list_pop._list_depth = 0) ∧
    (0 < m._list_depth → m.list_pop._list_depth = m._list_depth - 1) := by
  refine ⟨foldl_depth_nonneg ops MarkdownFile.empty (by decide), ?_, ?_⟩
  · intro h
    simp [h]
  · intro h
    simp only [list_pop_depth]
    omega

/-- C6 witness: the theorem instantiated at concrete inputs, with both
hypotheses discharged by evaluation. -/
theorem c6_depth_never_negative_witness :
    0 ≤ (runOps [MdOp.list_pushn "a", MdOp.list_pop, MdOp.list_pop])._list_depth ∧
    MarkdownFile.empty.list_pop._list_depth = 0 ∧
    (MarkdownFile.empty.list_push "x").list_pop._list_depth
      = (MarkdownFile.empty.list_push "x")._list_depth - 1 := by
  refine ⟨?_, ?_, ?_⟩
  · exact (c6_depth_never_negative [MdOp.list_pushn "a", MdOp.list_pop, MdOp.list_pop]
      MarkdownFile.empty).1
  · exact (c6_depth_never_negative [] MarkdownFile.empty).2.1 rfl
  · exact (c6_depth_never_negative [] (MarkdownFile.empty.list_push "x")).2.2 (by decide)

/-- C7: `list_push(text)` with non-empty `text` appends four spaces repeated
`depth` times (empty at depth 0), then `"- "`, then the text, and increments
the depth; with empty `text` it leaves the buffer unchanged and still
increments the depth. -/
theorem c7_list_push (m : MarkdownFile) (buf : String) :
    (buf ≠ "" →
      (m.list_push buf)._data
        = m._data ++ (strMul "    " m._list_depth ++ ("- " ++ buf)) ∧
      (m.list_push buf)._list_depth = m._list_depth + 1) ∧
    (buf = "" →
      (m.list_push buf)._data = m._data ∧
      (m.list_push buf)._list_depth = m._list_depth + 1) := by
  constructor
  · intro h
    exact ⟨list_push_data_of_ne m buf h, list_push_depth m buf⟩
  · intro h
    subst h
    exact ⟨list_push_data_of_empty m, list_push_depth m ""⟩

/-- C7 witness: the theorem instantiated at a fresh accumulator with a
non-empty and with an empty argument. -/
theorem c7_list_push_witness :
    (MarkdownFile.empty.list_push "a")._data = "- a" ∧
    (MarkdownFile.empty.list_push "a")._list_depth = 1 ∧
    (MarkdownFile.empty.list_push "")._data = "" ∧
    (MarkdownFile.empty.list_push "")._list_depth = 1 := by
  have h1 := (c7_list_push MarkdownFile.empty "a").1 (by decide)
  have h2 := (c7_list_push MarkdownFile.empty "").2 rfl
  refine ⟨?_, ?_, h2.1, ?_⟩
  · rw [h1.1]
    decide
  · rw [h1.2]
    decide
  · rw [h2.2]
    decide

/-- C9: `text`, `textn`, `not_title`, `title` and `new_line` leave the
nesting-depth counter unchanged; `list_push`/`list_pushn` increment it by
one and `list_pop`/`list_popn` decrement it (floored at zero), and no other
mutating operation touches it.  (`data` and `code_block` are modelled as
pure functions returning a string — they produce no new state at all.) -/
theorem c9_frame_depth (m : MarkdownFile) (buf : String) (strongness : Int) :
    (m.text buf)._list_depth = m._list_depth ∧
    (m.textn buf)._list_depth = m._list_depth ∧
    (m.not_title buf)._list_depth = m._list_depth ∧
    (m.title strongness buf)._list_depth = m._list_depth ∧
    m.new_line._list_depth = m._list_depth ∧
    (m.list_push buf)._list_depth = m._list_depth + 1 ∧
    (m.list_pushn buf)._list_depth = m._list_depth + 1 ∧
    m.list_pop._list_depth = max (m._list_depth - 1) 0 ∧
    m.list_popn._list_depth = max (m._list_depth - 1) 0 := by
  refine ⟨rfl, rfl, rfl, rfl, rfl, list_push_depth m buf, list_pushn_depth m buf, rfl, rfl⟩

/-- C10: the accumulator buffer is append-only: every public mutating
operation extends `_data` by a suffix, never rewriting previously emitted
text.  (`data` and `code_block` are modelled as pure functions returning a
string, so they leave the state — in particular the buffer — exactly
unchanged by construction.) -/
theorem c10_append_only (m : MarkdownFile) (op : MdOp) :
    ∃ t : String, (applyOp m op)._data = m._data ++ t := by
  cases op with
  | text buf => exact ⟨buf, by simp [applyOp]⟩
  | textn buf => exact ⟨buf ++ MarkdownFile.endl, by simp [applyOp]⟩
  | not_title buf => exact ⟨"\n" ++ ("#" ++ (buf ++ "\n")), by simp [applyOp]⟩
  | title strongness buf =>
    exact ⟨"\n" ++ (strMul "#" strongness ++ (" " ++ (buf ++ "\n"))), by simp [applyOp]⟩
  | new_line => exact ⟨MarkdownFile.endl, by simp [applyOp]⟩
  | list_push buf =>
    by_cases h : buf = ""
    · exact ⟨"", by simp [applyOp, h, list_push_data_of_empty]⟩
    · exact ⟨strMul "    " m._list_depth ++ ("- " ++ buf),
        by simp [applyOp, list_push_data_of_ne m buf h]⟩
  | list_pushn buf =>
    exact ⟨strMul "    " m._list_depth ++ ("- " ++ (buf ++ MarkdownFile.endl)),
      by simp [applyOp, list_pushn_data]⟩
  | list_pop => exact ⟨"", by simp [applyOp]⟩
  | list_popn => exact ⟨"\n", by simp [applyOp]⟩

/-- C8 counterexample: at input `""` the claimed equivalence fails.
`list_push('')` appends nothing, but `list_pushn('')` passes the non-empty
string `'' + endl` on to `list_push`, which therefore emits a bullet line
`"-   \n"`: the bullet-or-nothing decisions differ. -/
theorem c8_counterexample :
    (MarkdownFile.empty.list_push "")._data = MarkdownFile.empty._data ∧
    (MarkdownFile.empty.list_pushn "")._data ≠ MarkdownFile.empty._data ∧
    (MarkdownFile.empty.list_pushn "")._data = "-   \n" := by
  refine ⟨rfl, ?_, rfl⟩
  decide

/-- C8 (amended): `list_pushn(text)` equals `list_push(text + endl)`; both
always increment the depth by one, and for non-empty `text` they emit the
same bullet except that `list_pushn`'s appended text additionally ends with
the line break `endl`; for empty `text`, however, `list_push` emits nothing
while `list_pushn` still emits a bullet line (its argument `'' + endl` is
non-empty). -/
theorem c8_list_pushn (m : MarkdownFile) (buf : String) :
    m.list_pushn buf = m.list_push (buf ++ MarkdownFile.endl) ∧
    (m.list_pushn buf)._list_depth = (m.list_push buf)._list_depth ∧
    (buf ≠ "" →
      (m.list_push buf)._data
        = m._data ++ (strMul "    " m._list_depth ++ ("- " ++ buf)) ∧
      (m.list_pushn buf)._data
        = m._data ++ (strMul "    " m._list_depth ++ ("- " ++ buf ++ MarkdownFile.endl))) ∧
    (buf = "" →
      (m.list_push buf)._data = m._data ∧
      (m.list_pushn buf)._data
        = m._data ++ (strMul "    " m._list_depth ++ ("- " ++ MarkdownFile.endl))) := by
  refine ⟨list_pushn_eq m buf, ?_, ?_, ?_⟩
  · rw [list_pushn_depth, list_push_depth]
  · intro h
    refine ⟨list_push_data_of_ne m buf h, ?_⟩
    rw [list_pushn_data]
    simp [String.append_assoc]
  · intro h
    subst h
    refine ⟨list_push_data_of_empty m, ?_⟩
    rw [list_pushn_data]
    simp

/-- C8 witness: the amended theorem instantiated at a fresh accumulator with
a non-empty and with an empty argument, hypotheses discharged by
evaluation. -/
theorem c8_list_pushn_witness :
    (MarkdownFile.empty.list_push "b")._data = "- b" ∧
    (MarkdownFile.empty.list_pushn "b")._data = "- b  \n" ∧
    (MarkdownFile.empty.list_push "")._data = "" ∧
    (MarkdownFile.empty.list_pushn "")._data = "-   \n" ∧
    (MarkdownFile.empty.list_pushn "b")._list_depth
      = (MarkdownFile.empty.list_push "b")._list_depth := by
  have h1 := (c8_list_pushn MarkdownFile.empty "b").2.2.1 (by decide)
  have h2 := (c8_list_pushn MarkdownFile.empty "").2.2.2 rfl
  have h3 := (c8_list_pushn MarkdownFile.empty "b").2.1
  refine ⟨?_, ?_, h2.1, ?_, h3⟩
  · rw [h1.1]
    decide
  · rw [h1.2]
    decide
  · rw [h2.2]
    decide

/-- C2: contrary to the claim (and to `list_depth`'s own docstring), `textn`
never prepends indentation, even when the buffer ends with a line break and
the depth is positive: `str.strip()` removes the trailing newline before the
last-character check, so `list_depth()` always returns `""`.  The failing
input: from a fresh accumulator, `list_pushn("t")` leaves the buffer
`"- t  \n"` (ending in a line break) at depth 1, yet `textn("x")` appends
`"x  \n"` with no indentation (the claim requires `"    x  \n"`). -/
theorem c2_textn_never_indents :
    (∀ m : MarkdownFile, m.list_depth = "") ∧
    lastSlice (MarkdownFile.empty.list_pushn "t")._data = "\n" ∧
    (MarkdownFile.empty.list_pushn "t")._list_depth = 1 ∧
    ((MarkdownFile.empty.list_pushn "t").textn "x")._data = "- t  \nx  \n" := by
  refine ⟨list_depth_empty, ?_, ?_, ?_⟩
  · decide
  · decide
  · decide

/-- C1: when the provider fetch raises a connection failure (`RuntimeError`),
`main` prints a multi-line diagnostic and terminates normally with exit
status 0 — the same status as the success path — rather than propagating the
fault.  (`mainModel` is a total function of the fetch outcome: both branches
return an ordinary `MainResult`, so no unhandled fault reaches the caller.) -/
theorem c1_connection_failure_exit_zero (bps : List ActorBlueprint) :
    (mainModel (Except.error ())).exitCode = 0 ∧
    (mainModel (Except.ok bps)).exitCode = 0 ∧
    (mainModel (Except.error ())).exitCode = (mainModel (Except.ok bps)).exitCode ∧
    2 ≤ (mainModel (Except.error ())).printed.length := by
  refine ⟨rfl, rfl, rfl, ?_⟩
  decide

@[simp] theorem flattenGroups_nil {α : Type} :
    flattenGroups ([] : List (String × List α)) = [] := rfl

@[simp] theorem flattenGroups_cons {α : Type} (p : String × List α)
    (rest : List (String × List α)) :
    flattenGroups (p :: rest) = p.2 ++ flattenGroups rest := rfl

theorem flattenGroups_dictAppend {α : Type} (gs : List (String × List α))
    (k : String) (v : α) :
    List.Perm (flattenGroups (dictAppend gs k v)) (flattenGroups gs ++ [v]) := by
  induction gs with
  | nil => simp [dictAppend]
  | cons hd rest ih =>
    obtain ⟨k', g⟩ := hd
    by_cases h : k' = k
    · simp only [dictAppend, if_pos h, flattenGroups_cons]
      rw [List.append_assoc, List.append_assoc]
      exact List.Perm.append_left g List.perm_append_comm
    · simp only [dictAppend, if_neg h, flattenGroups_cons]
      refine (List.Perm.append_left g ih).trans ?_
      rw [List.append_assoc]

theorem flattenGroups_loop {α : Type} (key : α → String) :
    ∀ (l : List α) (gs : List (String × List α)),
      List.Perm (flattenGroups (l.foldl (fun d a => dictAppend d (key a) a) gs))
        (flattenGroups gs ++ l) := by
  intro l
  induction l with
  | nil => intro gs; simp
  | cons a l ih =>
    intro gs
    simp only [List.foldl_cons]
    refine (ih (dictAppend gs (key a) a)).trans ?_
    refine ((flattenGroups_dictAppend gs (key a) a).append_right l).trans ?_
    simp [List.append_assoc]

/-- C3: grouping identifiers by the substring before the first `.` (as the
dict-building loop does, over the sorted identifier list) and re-flattening
all groups is a permutation of the original identifier collection — no
identifier dropped, none duplicated.  The second conjunct states the same
for the actual `bp_dict` of `generate_pb_docs` (whose group entries are
`(bp_id, blueprint)` pairs). -/
theorem c3_group_flatten_reconstructs (ids : List String) (bps : List ActorBlueprint) :
    List.Perm (flattenGroups (groupByCategory bpCategory (pySorted ids))) ids ∧
    List.Perm ((flattenGroups (bp_dict bps)).map Prod.fst) (bps.map ActorBlueprint.id) := by
  constructor
  · refine (flattenGroups_loop bpCategory (pySorted ids) []).trans ?_
    simpa using List.mergeSort_perm ids leStr
  · unfold bp_dict groupByCategory
    refine ((flattenGroups_loop (fun p => bpCategory p.1) _ []).map Prod.fst).trans ?_
    have h2 : (((pySorted (bps.map ActorBlueprint.id)).map
        (fun bp_id => (bp_id, lookupLast bps bp_id))).map Prod.fst)
        = pySorted (bps.map ActorBlueprint.id) := by
      rw [List.map_map]
      exact List.map_id _
    simp only [flattenGroups_nil, List.nil_append]
    rw [h2]
    exact List.mergeSort_perm (bps.map ActorBlueprint.id) leStr

theorem leFst_trans (a b c : String × Option ActorBlueprint) :
    leFst a b → leFst b c → leFst a c := by
  intro hab hbc
  simp only [leFst, decide_eq_true_eq] at *
  exact le_trans hab hbc

theorem leFst_total (a b : String × Option ActorBlueprint) :
    leFst a b || leFst b a := by
  simp only [leFst, Bool.or_eq_true, decide_eq_true_eq]
  exact le_total _ _

theorem leAttrId_trans (a b c : ActorAttribute) :
    leAttrId a b → leAttrId b c → leAttrId a c := by
  intro hab hbc
  simp only [leAttrId, decide_eq_true_eq] at *
  exact le_trans hab hbc

theorem leAttrId_total (a b : ActorAttribute) :
    leAttrId a b || leAttrId b a := by
  simp only [leAttrId, Bool.or_eq_true, decide_eq_true_eq]
  exact le_total _ _

/-- C4: the blueprint entries rendered inside a category section are
iterated in the order `sorted(value)`, whose identifiers are in
non-decreasing lexicographic order; the attribute lines of a blueprint are
iterated in the order `sorted(bp[1], key=lambda x: x.id)`, whose attribute
identifiers are in non-decreasing lexicographic order. -/
theorem c4_rendering_sorted (value : List (String × Option ActorBlueprint))
    (attrs : List ActorAttribute) :
    List.Pairwise (fun a b => a ≤ b) ((pySortedPairs value).map Prod.fst) ∧
    List.Pairwise (fun a b => a ≤ b) ((pySortedAttrs attrs).map ActorAttribute.id) := by
  constructor
  · have h := List.sorted_mergeSort leFst_trans leFst_total value
    rw [List.pairwise_map]
    exact h.imp (fun hab => by simpa [leFst] using hab)
  · have h := List.sorted_mergeSort leAttrId_trans leAttrId_total attrs
    rw [List.pairwise_map]
    exact h.imp (fun hab => by simpa [leAttrId] using hab)

theorem keys_dictAppend {α : Type} (gs : List (String × List α)) (k : String) (v : α) :
    (dictAppend gs k v).map Prod.fst =
      if k ∈ gs.map Prod.fst then gs.map Prod.fst else gs.map Prod.fst ++ [k] := by
  induction gs with
  | nil => simp [dictAppend]
  | cons hd rest ih =>
    obtain ⟨k', g⟩ := hd
    by_cases h : k' = k
    · subst h
      simp [dictAppend]
    · simp only [dictAppend, if_neg h, List.map_cons]
      rw [ih]
      by_cases hk : k ∈ rest.map Prod.fst
      · rw [if_pos hk, if_pos (by simp [hk])]
      · rw [if_neg hk, if_neg ?hnot, List.cons_append]
        case hnot =>
          simp only [List.mem_cons, not_or]
          exact ⟨fun he => h he.symm, hk⟩

theorem firstEncounterAux_congr :
    ∀ (l : List String) (s₁ s₂ : List String), (∀ x, x ∈ s₁ ↔ x ∈ s₂) →
      firstEncounterAux s₁ l = firstEncounterAux s₂ l
  | [], _, _, _ => rfl
  | a :: l, s₁, s₂, h => by
    simp only [firstEncounterAux]
    by_cases ha : a ∈ s₁
    · rw [if_pos ha, if_pos ((h a).mp ha), firstEncounterAux_congr l s₁ s₂ h]
    · rw [if_neg ha, if_neg (fun hh => ha ((h a).mpr hh)),
        firstEncounterAux_congr l (a :: s₁) (a :: s₂) (by intro x; simp [h x])]

theorem keys_loop {α : Type} (key : α → String) :
    ∀ (l : List α) (gs : List (String × List α)),
      (l.foldl (fun d a => dictAppend d (key a) a) gs).map Prod.fst
        = gs.map Prod.fst ++ firstEncounterAux (gs.map Prod.fst) (l.map key) := by
  intro l
  induction l with
  | nil => intro gs; simp [firstEncounterAux]
  | cons a l ih =>
    intro gs
    simp only [List.foldl_cons, List.map_cons]
    rw [ih (dictAppend gs (key a) a), keys_dictAppend]
    by_cases h : key a ∈ gs.map Prod.fst
    · rw [if_pos h]
      simp only [firstEncounterAux]
      rw [if_pos h]
    · rw [if_neg h]
      simp only [firstEncounterAux]
      rw [if_neg h]
      rw [firstEncounterAux_congr (l.map key) (gs.map Prod.fst ++ [key a])
        (key a :: gs.map Prod.fst) (by intro x; simp [or_comm])]
      simp

/-- C5: the category sections are emitted in the iteration order of the
dict's keys, which equals the order in which each category is first
encountered during the lexicographically sorted scan of the identifiers (not
alphabetical category order).  The second conjunct states the same for the
identifier-level grouping. -/
theorem c5_category_order (bps : List ActorBlueprint) (ids : List String) :
    (bp_dict bps).map Prod.fst
      = specFirstEncounterOrder ((pySorted (bps.map ActorBlueprint.id)).map bpCategory) ∧
    (groupByCategory bpCategory (pySorted ids)).map Prod.fst
      = specFirstEncounterOrder ((pySorted ids).map bpCategory) := by
  constructor
  · unfold bp_dict groupByCategory specFirstEncounterOrder
    rw [keys_loop]
    rw [List.map_map]
    simp only [List.map_nil, List.nil_append]
    rfl
  · unfold groupByCategory specFirstEncounterOrder
    rw [keys_loop]
    simp

end BpDocGen
